import Mathlib

/-!
# Spatial Grid Placement Engine — verification development

A shallow embedding of the `GridService` class from
`src/frontend/src/services/displayService.ts`, together with proofs of the
specified properties of its operations.

Modelling conventions:
* JavaScript numbers are modelled as exact rationals (`ℚ`).  All arithmetic
  in the grid engine is addition, subtraction, multiplication and division,
  which JavaScript performs exactly on the (small, mostly integral) values
  in play here; `Math.floor` / `Math.ceil` become `Int.floor` / `Int.ceil`,
  and `Math.round` (round half toward +∞) becomes `fun q => ⌊q + 1/2⌋`.
  The one point where the rational model diverges from IEEE semantics is
  division by a zero `cellSize` (JavaScript yields `±Infinity`/`NaN`);
  theorems whose truth depends on that case carry a `cellSize ≠ 0` (or
  stronger) hypothesis.
* The mutable `grid: GridPoint[][]` field becomes an immutable
  `List (List GridPoint)` threaded through the state-transforming
  operations (`reserveGridSpace`, `releaseGridSpace`); operations whose
  bodies contain no assignment are translated as functions that do not
  produce a new state (state-passing wrappers returning the unchanged
  state are provided for the frame theorems).
* `a?.[i]` element access becomes `Option`-valued lookup (`cellAtZ`);
  a JavaScript `for (let i = lo; i < hi; i++)` loop over integers becomes
  iteration over `intRange lo hi`, and an early-`return` scan becomes
  `List.find?` / `List.all` over that range.
-/

/-- `GridConfig` from `types/widget.ts`: cell size, padding and canvas
dimensions, all in pixels. -/
structure GridConfig where
  cellSize : ℚ
  padding : ℚ
  width : ℚ
  height : ℚ
deriving DecidableEq

/-- `GridPoint` from `types/widget.ts`: one cell of the occupancy grid,
holding its top-left pixel anchor, an occupancy flag and an optional owner
id (`undefined` is modelled as `none`). -/
structure GridPoint where
  x : ℚ
  y : ℚ
  occupied : Bool
  widgetId : Option String
deriving DecidableEq

/-- JavaScript `Math.round`: round half toward positive infinity. -/
def jsRound (q : ℚ) : ℤ := ⌊q + 1 / 2⌋

/-- The integers `lo, lo+1, …, hi-1` (empty when `hi ≤ lo`): the index
sequence of a JavaScript loop `for (let i = lo; i < hi; i++)`. -/
def intRange (lo hi : ℤ) : List ℤ :=
  (List.range (hi - lo).toNat).map fun (i : ℕ) => lo + (i : ℤ)

/-- `availableWidth = width - padding * 2` as computed in every method. -/
def availableWidth (c : GridConfig) : ℚ := c.width - c.padding * 2

/-- `availableHeight = height - padding * 2` as computed in every method. -/
def availableHeight (c : GridConfig) : ℚ := c.height - c.padding * 2

/-- `cols = Math.floor(availableWidth / cellSize)` (a signed quantity:
negative when the available width is negative). -/
def colsZ (c : GridConfig) : ℤ := ⌊availableWidth c / c.cellSize⌋

/-- `rows = Math.floor(availableHeight / cellSize)`. -/
def rowsZ (c : GridConfig) : ℤ := ⌊availableHeight c / c.cellSize⌋

/-- `offsetX = (availableWidth - cols * cellSize) / 2`. -/
def offsetX (c : GridConfig) : ℚ :=
  (availableWidth c - (colsZ c : ℚ) * c.cellSize) / 2

/-- `offsetY = (availableHeight - rows * cellSize) / 2`. -/
def offsetY (c : GridConfig) : ℚ :=
  (availableHeight c - (rowsZ c : ℚ) * c.cellSize) / 2

/-- The grid built by `initializeGrid`: `rows` rows of `cols` cells, each
cell anchored at `padding + offset + index * cellSize` per axis,
unoccupied and ownerless.  (The loops run zero times when the computed
`rows`/`cols` are not positive.) -/
def initializeGrid (c : GridConfig) : List (List GridPoint) :=
  (List.range (rowsZ c).toNat).map fun (row : ℕ) =>
    (List.range (colsZ c).toNat).map fun (col : ℕ) =>
      { x := c.padding + offsetX c + (col : ℚ) * c.cellSize
        y := c.padding + offsetY c + (row : ℚ) * c.cellSize
        occupied := false
        widgetId := none }

/-- The engine state: the (logically immutable) config plus the mutable
occupancy grid. -/
structure GridService where
  config : GridConfig
  grid : List (List GridPoint)
deriving DecidableEq

/-- `new GridService(config)`: store the config and build the grid. -/
def GridService.init (c : GridConfig) : GridService :=
  { config := c, grid := initializeGrid c }

/-- `this.grid[row]?.[col]`: `none` when either index is out of range
(negative indices also yield `undefined` in JavaScript). -/
def cellAtZ (grid : List (List GridPoint)) (row col : ℤ) : Option GridPoint :=
  if 0 ≤ row ∧ 0 ≤ col then
    (grid[row.toNat]?).bind fun (r : List GridPoint) => r[col.toNat]?
  else none

/-- `snapToGrid(x, y)`: round the padded-and-offset-adjusted point to the
nearest cell index, clamp into `[0, cols-1] × [0, rows-1]`, and convert
back to pixel coordinates. -/
def snapToGrid (c : GridConfig) (x y : ℚ) : ℚ × ℚ :=
  let adjustedX := x - c.padding - offsetX c
  let adjustedY := y - c.padding - offsetY c
  let col := jsRound (adjustedX / c.cellSize)
  let row := jsRound (adjustedY / c.cellSize)
  let clampedCol := max 0 (min (colsZ c - 1) col)
  let clampedRow := max 0 (min (rowsZ c - 1) row)
  (c.padding + offsetX c + (clampedCol : ℚ) * c.cellSize,
   c.padding + offsetY c + (clampedRow : ℚ) * c.cellSize)

/-- `startCol = Math.floor((x - padding - offsetX) / cellSize)`. -/
def startColOf (c : GridConfig) (x : ℚ) : ℤ :=
  ⌊(x - c.padding - offsetX c) / c.cellSize⌋

/-- `startRow = Math.floor((y - padding - offsetY) / cellSize)`. -/
def startRowOf (c : GridConfig) (y : ℚ) : ℤ :=
  ⌊(y - c.padding - offsetY c) / c.cellSize⌋

/-- `endCol = Math.ceil((x + width - padding - offsetX) / cellSize)`. -/
def endColOf (c : GridConfig) (x w : ℚ) : ℤ :=
  ⌈(x + w - c.padding - offsetX c) / c.cellSize⌉

/-- `endRow = Math.ceil((y + height - padding - offsetY) / cellSize)`. -/
def endRowOf (c : GridConfig) (y h : ℚ) : ℤ :=
  ⌈(y + h - c.padding - offsetY c) / c.cellSize⌉

/-- `canPlaceWidget(x, y, width, height, excludeWidgetId?)`: false when the
covered cell range leaves `[0,cols) × [0,rows)`; otherwise true unless some
covered cell is occupied by an id different from `excludeWidgetId`. -/
def canPlaceWidget (g : GridService) (x y w h : ℚ)
    (excludeWidgetId : Option String) : Bool :=
  let c := g.config
  if startColOf c x < 0 ∨ startRowOf c y < 0 ∨
      colsZ c < endColOf c x w ∨ rowsZ c < endRowOf c y h then
    false
  else
    (intRange (startRowOf c y) (endRowOf c y h)).all fun row =>
      (intRange (startColOf c x) (endColOf c x w)).all fun col =>
        match cellAtZ g.grid row col with
        | some p => !(p.occupied && decide (p.widgetId ≠ excludeWidgetId))
        | none => true

/-- `reserveGridSpace(x, y, width, height, widgetId)`: mark every covered
cell that exists as `occupied = true, widgetId = id`, unconditionally;
covered indices outside the grid are skipped. -/
def reserveGridSpace (g : GridService) (x y w h : ℚ) (widgetId : String) :
    GridService :=
  let c := g.config
  { g with
    grid := g.grid.mapIdx fun row rowCells =>
      if startRowOf c y ≤ (row : ℤ) ∧ (row : ℤ) < endRowOf c y h then
        rowCells.mapIdx fun col p =>
          if startColOf c x ≤ (col : ℤ) ∧ (col : ℤ) < endColOf c x w then
            { p with occupied := true, widgetId := some widgetId }
          else p
      else rowCells }

/-- `releaseGridSpace(widgetId)`: full scan resetting every cell owned by
`widgetId` to `occupied = false, widgetId = undefined`. -/
def releaseGridSpace (g : GridService) (widgetId : String) : GridService :=
  { g with
    grid := g.grid.map fun rowCells =>
      rowCells.map fun p =>
        if p.widgetId = some widgetId then
          { p with occupied := false, widgetId := none }
        else p }

/-- The ring-perimeter offsets actually scanned by the source for a given
radius: `dx` ascending (outer loop), `dy` ascending (inner loop), keeping
offsets with `|dx| = radius` or `|dy| = radius`. -/
def ringOffsets (radius : ℤ) : List (ℤ × ℤ) :=
  (intRange (-radius) (radius + 1)).flatMap fun dx =>
    ((intRange (-radius) (radius + 1)).filter fun dy =>
      decide (|dx| = radius ∨ |dy| = radius)).map fun dy => (dx, dy)

/-- `findNearestFreePosition(x, y, width, height)`: snap; return the
snapped point if placeable; otherwise scan rings of radius `1 …
max(ceil(w/cellSize), ceil(h/cellSize)) * 2` and return the first
placeable candidate `snapped + (dx,dy) * cellSize`; fall back to the
snapped point. -/
def findNearestFreePosition (g : GridService) (x y w h : ℚ) : ℚ × ℚ :=
  let snapped := snapToGrid g.config x y
  if canPlaceWidget g snapped.1 snapped.2 w h none then snapped
  else
    let maxRadius : ℤ :=
      max ⌈w / g.config.cellSize⌉ ⌈h / g.config.cellSize⌉ * 2
    let candidates : List (ℚ × ℚ) :=
      (intRange 1 (maxRadius + 1)).flatMap fun radius =>
        (ringOffsets radius).map fun d =>
          (snapped.1 + (d.1 : ℚ) * g.config.cellSize,
           snapped.2 + (d.2 : ℚ) * g.config.cellSize)
    match candidates.find? fun q => canPlaceWidget g q.1 q.2 w h none with
    | some q => q
    | none => snapped

/-- `getGridVisualization()`: one rectangle per cell. -/
def getGridVisualization (g : GridService) : List (ℚ × ℚ × ℚ × ℚ) :=
  g.grid.flatMap fun rowCells =>
    rowCells.map fun p => (p.x, p.y, g.config.cellSize, g.config.cellSize)

/-- `getGridPoints()`: the `(rows+1) × (cols+1)` grid intersection
points. -/
def getGridPoints (g : GridService) : List (ℚ × ℚ) :=
  let c := g.config
  (intRange 0 (rowsZ c + 1)).flatMap fun (row : ℤ) =>
    (intRange 0 (colsZ c + 1)).map fun (col : ℤ) =>
      (c.padding + offsetX c + (col : ℚ) * c.cellSize,
       c.padding + offsetY c + (row : ℚ) * c.cellSize)

/-! ## Auxiliary definitions: state-passing forms, traces, predicates -/

/-- State-passing translation of `snapToGrid`: the method reads
`this.config` and performs no assignment, so the state comes back
unchanged next to the result. -/
def snapToGridS (g : GridService) (x y : ℚ) : GridService × (ℚ × ℚ) :=
  (g, snapToGrid g.config x y)

/-- State-passing translation of `canPlaceWidget` (a pure query: the body
reads `this.grid` and `this.config` and contains no assignment). -/
def canPlaceWidgetS (g : GridService) (x y w h : ℚ) (ex : Option String) :
    GridService × Bool :=
  (g, canPlaceWidget g x y w h ex)

/-- State-passing translation of `findNearestFreePosition`, composed from
the state-passing forms of the two methods it calls, threading the state
through the snap, the fast-path test and the ring scan in source order. -/
def findNearestFreePositionS (g : GridService) (x y w h : ℚ) :
    GridService × (ℚ × ℚ) :=
  let s1 := snapToGridS g x y
  let snapped := s1.2
  let c1 := canPlaceWidgetS s1.1 snapped.1 snapped.2 w h none
  if c1.2 then (c1.1, snapped)
  else
    let maxRadius : ℤ :=
      max ⌈w / c1.1.config.cellSize⌉ ⌈h / c1.1.config.cellSize⌉ * 2
    let candidates : List (ℚ × ℚ) :=
      (intRange 1 (maxRadius + 1)).flatMap fun radius =>
        (ringOffsets radius).map fun d =>
          (snapped.1 + (d.1 : ℚ) * c1.1.config.cellSize,
           snapped.2 + (d.2 : ℚ) * c1.1.config.cellSize)
    let scan := candidates.foldl
      (fun (acc : GridService × Option (ℚ × ℚ)) q =>
        match acc.2 with
        | some _ => acc
        | none =>
          let t := canPlaceWidgetS acc.1 q.1 q.2 w h none
          if t.2 then (t.1, some q) else (t.1, none))
      (c1.1, none)
    match scan.2 with
    | some q => (scan.1, q)
    | none => (scan.1, snapped)

/-- The public operations of the engine, as a trace alphabet. -/
inductive GridOp where
  | reserve (x y w h : ℚ) (id : String)
  | release (id : String)
  | snap (x y : ℚ)
  | canPlace (x y w h : ℚ) (ex : Option String)
  | findFree (x y w h : ℚ)
  | visualize
  | points
deriving DecidableEq

/-- One engine step: `reserve`/`release` update the grid; each query
leaves the state of its state-passing form (which is unchanged, as the
frame theorems record). -/
def applyOp (g : GridService) : GridOp → GridService
  | .reserve x y w h id => reserveGridSpace g x y w h id
  | .release id => releaseGridSpace g id
  | .snap x y => (snapToGridS g x y).1
  | .canPlace x y w h ex => (canPlaceWidgetS g x y w h ex).1
  | .findFree x y w h => (findNearestFreePositionS g x y w h).1
  | .visualize => g
  | .points => g

/-- Run a trace of operations. -/
def applyOps (g : GridService) (ops : List GridOp) : GridService :=
  ops.foldl applyOp g

/-- The cell built by `initializeGrid` at row `r`, column `cl`. -/
def initCell (c : GridConfig) (r cl : ℤ) : GridPoint :=
  { x := c.padding + offsetX c + (cl : ℚ) * c.cellSize
    y := c.padding + offsetY c + (r : ℚ) * c.cellSize
    occupied := false
    widgetId := none }

/-- The bounds check of `canPlaceWidget`/the covered-range computation
passes: the covered cell range lies inside `[0,cols) × [0,rows)`. -/
def coveredInBounds (c : GridConfig) (x y w h : ℚ) : Prop :=
  0 ≤ startColOf c x ∧ 0 ≤ startRowOf c y ∧
    endColOf c x w ≤ colsZ c ∧ endRowOf c y h ≤ rowsZ c

instance (c : GridConfig) (x y w h : ℚ) :
    Decidable (coveredInBounds c x y w h) := by
  unfold coveredInBounds
  infer_instance

/-- The grid array has exactly the dimensions derived from the config. -/
def WellFormed (g : GridService) : Prop :=
  g.grid.length = (rowsZ g.config).toNat ∧
    ∀ (n : ℕ) (row : List GridPoint), g.grid[n]? = some row →
      row.length = (colsZ g.config).toNat

/-- The occupancy/owner pairing invariant for one cell: an occupied cell
has a defined, non-empty owner id; a free cell has no owner id. -/
def cellInv (p : GridPoint) : Prop :=
  (p.occupied = true → p.widgetId ≠ none ∧ p.widgetId ≠ some "") ∧
    (p.occupied = false → p.widgetId = none)

instance (p : GridPoint) : Decidable (cellInv p) := by
  unfold cellInv
  infer_instance

/-- The state invariant of the claim: every cell satisfies `cellInv`. -/
def GridInv (g : GridService) : Prop :=
  ∀ row ∈ g.grid, ∀ p ∈ row, cellInv p

instance (g : GridService) : Decidable (GridInv g) := by
  unfold GridInv
  infer_instance

/-- A `reserve` carries a non-empty caller-supplied id; other operations
are unconstrained. -/
def opIdOk : GridOp → Prop
  | .reserve _ _ _ _ id => id ≠ ""
  | _ => True

instance (op : GridOp) : Decidable (opIdOk op) := by
  cases op <;> (unfold opIdOk; infer_instance)

/-- The covered cell ranges of two rectangles (under one config) are
disjoint. -/
def coversDisjoint (c : GridConfig) (x1 y1 w1 h1 x2 y2 w2 h2 : ℚ) : Prop :=
  endColOf c x1 w1 ≤ startColOf c x2 ∨ endColOf c x2 w2 ≤ startColOf c x1 ∨
    endRowOf c y1 h1 ≤ startRowOf c y2 ∨ endRowOf c y2 h2 ≤ startRowOf c y1

instance (c : GridConfig) (x1 y1 w1 h1 x2 y2 w2 h2 : ℚ) :
    Decidable (coversDisjoint c x1 y1 w1 h1 x2 y2 w2 h2) := by
  unfold coversDisjoint
  infer_instance

/-- An operation on another id that does not touch the covered range of
the rectangle `(x, y, w, h)`. -/
def opAvoids (c : GridConfig) (x y w h : ℚ) (id : String) : GridOp → Prop
  | .reserve x' y' w' h' id' =>
      id' ≠ id ∧ coversDisjoint c x' y' w' h' x y w h
  | .release id' => id' ≠ id
  | _ => True

/-- Ring-perimeter offsets as the claim words them: the offsets in
`[-radius, radius]²` whose Chebyshev distance is exactly `radius`, `dx`
outer ascending, `dy` inner ascending. -/
def ringOffsetsChebyshev (radius : ℤ) : List (ℤ × ℤ) :=
  (intRange (-radius) (radius + 1)).flatMap fun dx =>
    ((intRange (-radius) (radius + 1)).filter fun dy =>
      decide (max |dx| |dy| = radius)).map fun dy => (dx, dy)

/-- `findNearestFreePosition` as the claim describes it: snap; fast path
when the snapped point is placeable; otherwise the first placeable
candidate `snapped + (dx,dy)*cellSize` scanning `radius = 1` up to
`maxRadius = 2 * ceil(max(w,h)/cellSize)`, `dx` outer ascending, `dy`
inner ascending, Chebyshev-perimeter offsets only; fallback to the
snapped point. -/
def findNearestFreePositionSpec (g : GridService) (x y w h : ℚ) : ℚ × ℚ :=
  let snapped := snapToGrid g.config x y
  if canPlaceWidget g snapped.1 snapped.2 w h none then snapped
  else
    let maxRadius : ℤ := 2 * ⌈max w h / g.config.cellSize⌉
    let candidates : List (ℚ × ℚ) :=
      (intRange 1 (maxRadius + 1)).flatMap fun radius =>
        (ringOffsetsChebyshev radius).map fun d =>
          (snapped.1 + (d.1 : ℚ) * g.config.cellSize,
           snapped.2 + (d.2 : ℚ) * g.config.cellSize)
    match candidates.find? fun q => canPlaceWidget g q.1 q.2 w h none with
    | some q => q
    | none => snapped

/-- The concrete config of the spec's scenario:
`{cellSize: 10, padding: 20, width: 800, height: 480}`. -/
def cfg800 : GridConfig := ⟨10, 20, 800, 480⟩

/-- A tiny 2×2 test grid: `{cellSize: 1, padding: 0, width: 2, height: 2}`. -/
def cfgTiny : GridConfig := ⟨1, 0, 2, 2⟩

/-- A degenerate config with negative cell size:
`{cellSize: -5, padding: 10, width: 10, height: 10}`. -/
def cfgNeg : GridConfig := ⟨-5, 10, 10, 10⟩

/-- A config whose usable width is negative:
`{cellSize: 10, padding: 20, width: 30, height: 480}`. -/
def cfgNarrow : GridConfig := ⟨10, 20, 30, 480⟩

example : colsZ ⟨10, 20, 800, 480⟩ = 76 := by
  norm_num [colsZ, availableWidth]
example : rowsZ ⟨10, 20, 800, 480⟩ = 44 := by
  norm_num [rowsZ, availableHeight]
example : snapToGrid ⟨10, 20, 800, 480⟩ 33 48 = (30, 50) := by
  norm_num [snapToGrid, jsRound, colsZ, rowsZ, offsetX, offsetY,
    availableWidth, availableHeight]
example : colsZ ⟨-5, 10, 10, 10⟩ = 2 := by
  norm_num [colsZ, availableWidth]

/-! ## Basic lemmas about the embedding -/

theorem mem_intRange {a lo hi : ℤ} : a ∈ intRange lo hi ↔ lo ≤ a ∧ a < hi := by
  simp only [intRange, List.mem_map, List.mem_range]
  constructor
  · rintro ⟨i, hlt, rfl⟩
    omega
  · rintro ⟨h1, h2⟩
    exact ⟨(a - lo).toNat, by omega, by omega⟩

theorem getElem?_mapIdx {α β : Type _} (l : List α) (f : ℕ → α → β) (n : ℕ) :
    (l.mapIdx f)[n]? = (l[n]?).map (f n) := by
  simp only [List.mapIdx_eq_enum_map, List.getElem?_map, List.getElem?_enum,
    Option.map_map]
  rfl

theorem cellAtZ_initializeGrid (c : GridConfig) (r cl : ℤ) :
    cellAtZ (initializeGrid c) r cl =
      if 0 ≤ r ∧ r < ((rowsZ c).toNat : ℤ) ∧ 0 ≤ cl ∧ cl < ((colsZ c).toNat : ℤ)
      then some (initCell c r cl)
      else none := by
  unfold cellAtZ initializeGrid initCell
  by_cases h1 : 0 ≤ r ∧ 0 ≤ cl
  · rw [if_pos h1]
    rw [List.getElem?_map]
    by_cases h2 : r.toNat < (rowsZ c).toNat
    · rw [List.getElem?_range h2]
      simp only [Option.map_some', Option.some_bind]
      rw [List.getElem?_map]
      by_cases h3 : cl.toNat < (colsZ c).toNat
      · rw [List.getElem?_range h3]
        have hr : ((r.toNat : ℕ) : ℤ) = r := Int.toNat_of_nonneg h1.1
        have hc : ((cl.toNat : ℕ) : ℤ) = cl := Int.toNat_of_nonneg h1.2
        have hrq : ((r.toNat : ℕ) : ℚ) = (r : ℚ) := by
          exact_mod_cast congrArg (fun z : ℤ => (z : ℚ)) hr
        have hcq : ((cl.toNat : ℕ) : ℚ) = (cl : ℚ) := by
          exact_mod_cast congrArg (fun z : ℤ => (z : ℚ)) hc
        rw [if_pos (by omega)]
        simp [hrq, hcq]
      · rw [List.getElem?_eq_none (by simpa using Nat.le_of_not_lt h3)]
        rw [if_neg (by omega)]
        rfl
    · rw [List.getElem?_eq_none (by simpa using Nat.le_of_not_lt h2)]
      rw [if_neg (by omega)]
      rfl
  · rw [if_neg h1, if_neg (by omega)]

theorem cellAtZ_reserveGridSpace (g : GridService) (x y w h : ℚ) (id : String)
    (r cl : ℤ) :
    cellAtZ (reserveGridSpace g x y w h id).grid r cl =
      (cellAtZ g.grid r cl).map fun p =>
        if startRowOf g.config y ≤ r ∧ r < endRowOf g.config y h ∧
            startColOf g.config x ≤ cl ∧ cl < endColOf g.config x w then
          { p with occupied := true, widgetId := some id }
        else p := by
  unfold cellAtZ reserveGridSpace
  by_cases h1 : 0 ≤ r ∧ 0 ≤ cl
  · rw [if_pos h1, if_pos h1]
    rw [getElem?_mapIdx]
    have hr : ((r.toNat : ℕ) : ℤ) = r := Int.toNat_of_nonneg h1.1
    have hc : ((cl.toNat : ℕ) : ℤ) = cl := Int.toNat_of_nonneg h1.2
    cases hrow : g.grid[r.toNat]? with
    | none => simp
    | some rowCells =>
      simp only [Option.map_some', Option.some_bind]
      by_cases h2 : startRowOf g.config y ≤ r ∧ r < endRowOf g.config y h
      · rw [if_pos (by omega)]
        rw [getElem?_mapIdx]
        cases hcell : rowCells[cl.toNat]? with
        | none => simp
        | some p =>
          simp only [Option.map_some']
          by_cases h3 : startColOf g.config x ≤ cl ∧ cl < endColOf g.config x w
          · rw [if_pos (by omega), if_pos (by omega)]
          · rw [if_neg (by omega), if_neg (by omega)]
      · rw [if_neg (by omega)]
        cases hcell : rowCells[cl.toNat]? with
        | none => simp
        | some p =>
          simp only [Option.map_some']
          rw [if_neg (by omega)]
  · rw [if_neg h1, if_neg h1]
    simp

theorem canPlaceWidget_eq_true_iff (g : GridService) (x y w h : ℚ)
    (ex : Option String) :
    canPlaceWidget g x y w h ex = true ↔
      coveredInBounds g.config x y w h ∧
      ∀ r cl : ℤ, startRowOf g.config y ≤ r → r < endRowOf g.config y h →
        startColOf g.config x ≤ cl → cl < endColOf g.config x w →
        ∀ p, cellAtZ g.grid r cl = some p →
          ¬(p.occupied = true ∧ p.widgetId ≠ ex) := by
  unfold canPlaceWidget coveredInBounds
  by_cases hb : startColOf g.config x < 0 ∨ startRowOf g.config y < 0 ∨
      colsZ g.config < endColOf g.config x w ∨
      rowsZ g.config < endRowOf g.config y h
  · rw [if_pos hb]
    simp only [Bool.false_eq_true, false_iff, not_and]
    intro hin
    omega
  · rw [if_neg hb, List.all_eq_true]
    constructor
    · intro hall
      refine ⟨by omega, ?_⟩
      intro r cl hr1 hr2 hc1 hc2 p hp
      have h1 := hall r (mem_intRange.mpr ⟨hr1, hr2⟩)
      rw [List.all_eq_true] at h1
      have h2 := h1 cl (mem_intRange.mpr ⟨hc1, hc2⟩)
      rw [hp] at h2
      revert h2
      cases hpo : p.occupied <;> by_cases hid : p.widgetId = ex <;>
        simp [hpo, hid]
    · rintro ⟨-, hcells⟩ r hr
      rw [List.all_eq_true]
      intro cl hcl
      rw [mem_intRange] at hr hcl
      cases hc : cellAtZ g.grid r cl with
      | none => rfl
      | some p =>
        have h3 := hcells r cl hr.1 hr.2 hcl.1 hcl.2 p hc
        cases hpo : p.occupied <;> by_cases hid : p.widgetId = ex <;>
          simp [hpo, hid] <;> exact h3 (by simp [hpo, hid])

theorem canPlaceWidget_eq_false_iff (g : GridService) (x y w h : ℚ)
    (ex : Option String) :
    canPlaceWidget g x y w h ex = false ↔
      ¬(canPlaceWidget g x y w h ex = true) := by
  cases hq : canPlaceWidget g x y w h ex <;> simp

theorem wellFormed_init (c : GridConfig) : WellFormed (GridService.init c) := by
  constructor
  · simp [GridService.init, initializeGrid]
  · intro n row hrow
    simp only [GridService.init, initializeGrid, List.getElem?_map] at hrow
    cases hn : (List.range (rowsZ c).toNat)[n]? with
    | none => rw [hn] at hrow; simp at hrow
    | some m =>
      rw [hn] at hrow
      simp only [Option.map_some', Option.some_inj] at hrow
      subst hrow
      simp [GridService.init]

theorem config_reserveGridSpace (g : GridService) (x y w h : ℚ) (id : String) :
    (reserveGridSpace g x y w h id).config = g.config := rfl

theorem config_releaseGridSpace (g : GridService) (id : String) :
    (releaseGridSpace g id).config = g.config := rfl

theorem wellFormed_reserveGridSpace (g : GridService) (x y w h : ℚ)
    (id : String) (hwf : WellFormed g) :
    WellFormed (reserveGridSpace g x y w h id) := by
  obtain ⟨hlen, hrows⟩ := hwf
  constructor
  · simpa [reserveGridSpace] using hlen
  · intro n row hrow
    rw [config_reserveGridSpace]
    unfold reserveGridSpace at hrow
    simp only at hrow
    rw [getElem?_mapIdx] at hrow
    cases hn : g.grid[n]? with
    | none => rw [hn] at hrow; simp at hrow
    | some oldRow =>
      rw [hn] at hrow
      simp only [Option.map_some', Option.some_inj] at hrow
      have := hrows n oldRow hn
      subst hrow
      by_cases hcond : startRowOf g.config y ≤ (n : ℤ) ∧
          (n : ℤ) < endRowOf g.config y h
      · rw [if_pos hcond]
        simpa using this
      · rw [if_neg hcond]
        exact this

theorem wellFormed_releaseGridSpace (g : GridService) (id : String)
    (hwf : WellFormed g) : WellFormed (releaseGridSpace g id) := by
  obtain ⟨hlen, hrows⟩ := hwf
  constructor
  · simpa [releaseGridSpace] using hlen
  · intro n row hrow
    rw [config_releaseGridSpace]
    unfold releaseGridSpace at hrow
    simp only [List.getElem?_map] at hrow
    cases hn : g.grid[n]? with
    | none => rw [hn] at hrow; simp at hrow
    | some oldRow =>
      rw [hn] at hrow
      simp only [Option.map_some', Option.some_inj] at hrow
      have := hrows n oldRow hn
      subst hrow
      simpa using this

theorem cellAtZ_isSome_of_wellFormed (g : GridService) (hwf : WellFormed g)
    {r cl : ℤ} (h0r : 0 ≤ r) (hr : r < rowsZ g.config) (h0c : 0 ≤ cl)
    (hc : cl < colsZ g.config) : ∃ p, cellAtZ g.grid r cl = some p := by
  obtain ⟨hwf1, hwf2⟩ := hwf
  unfold cellAtZ
  rw [if_pos ⟨h0r, h0c⟩]
  have hrlt : r.toNat < g.grid.length := by omega
  obtain ⟨row, hrow⟩ : ∃ row, g.grid[r.toNat]? = some row :=
    ⟨g.grid[r.toNat], List.getElem?_eq_getElem hrlt⟩
  rw [hrow]
  have hlen := hwf2 _ _ hrow
  have hclt : cl.toNat < row.length := by omega
  exact ⟨row[cl.toNat], by simp [List.getElem?_eq_getElem hclt]⟩

theorem cellAtZ_releaseGridSpace (g : GridService) (id : String) (r cl : ℤ) :
    cellAtZ (releaseGridSpace g id).grid r cl =
      (cellAtZ g.grid r cl).map fun p =>
        if p.widgetId = some id then
          { p with occupied := false, widgetId := none }
        else p := by
  unfold cellAtZ releaseGridSpace
  by_cases h1 : 0 ≤ r ∧ 0 ≤ cl
  · rw [if_pos h1, if_pos h1]
    rw [List.getElem?_map]
    cases hrow : g.grid[r.toNat]? with
    | none => simp
    | some rowCells => simp [List.getElem?_map]
  · rw [if_neg h1, if_neg h1]
    simp

theorem initializeGrid_length (c : GridConfig) :
    (initializeGrid c).length = (rowsZ c).toNat := by
  simp [initializeGrid]

theorem flatMap_congr {α β : Type _} {l : List α} {f g : α → List β}
    (h : ∀ a ∈ l, f a = g a) : l.flatMap f = l.flatMap g := by
  induction l with
  | nil => rfl
  | cons a l ih =>
    simp only [List.flatMap_cons]
    rw [h a (List.mem_cons_self a l), ih fun b hb => h b (List.mem_cons_of_mem a hb)]

theorem mapIdx_eq_self {α : Type _} (l : List α) (f : ℕ → α → α)
    (h : ∀ (i : ℕ) (a : α), l[i]? = some a → f i a = a) : l.mapIdx f = l := by
  apply List.ext_getElem?
  intro n
  rw [getElem?_mapIdx]
  cases hn : l[n]? with
  | none => rfl
  | some a => simp [h n a hn]

theorem cellAtZ_mem {grid : List (List GridPoint)} {r cl : ℤ} {p : GridPoint}
    (h : cellAtZ grid r cl = some p) : ∃ row ∈ grid, p ∈ row := by
  unfold cellAtZ at h
  by_cases h1 : 0 ≤ r ∧ 0 ≤ cl
  · rw [if_pos h1] at h
    cases hrow : grid[r.toNat]? with
    | none => rw [hrow] at h; simp at h
    | some row =>
      rw [hrow] at h
      simp only [Option.some_bind] at h
      exact ⟨row, List.getElem?_mem hrow, List.getElem?_mem h⟩
  · rw [if_neg h1] at h
    simp at h

theorem jsRound_intCast (n : ℤ) : jsRound (n : ℚ) = n := by
  unfold jsRound
  rw [Int.floor_eq_iff]
  constructor
  · norm_num
  · norm_num

theorem colsZ_eq_zero_of_cellSize_eq_zero (c : GridConfig)
    (h : c.cellSize = 0) : colsZ c = 0 := by
  unfold colsZ
  rw [h, div_zero, Int.floor_zero]

theorem rowsZ_eq_zero_of_cellSize_eq_zero (c : GridConfig)
    (h : c.cellSize = 0) : rowsZ c = 0 := by
  unfold rowsZ
  rw [h, div_zero, Int.floor_zero]

theorem cellSize_ne_zero_of_one_le_colsZ (c : GridConfig)
    (h : 1 ≤ colsZ c) : c.cellSize ≠ 0 := by
  intro h0
  rw [colsZ_eq_zero_of_cellSize_eq_zero c h0] at h
  omega

theorem snapToGridS_fst (g : GridService) (x y : ℚ) :
    (snapToGridS g x y).1 = g := rfl

theorem canPlaceWidgetS_fst (g : GridService) (x y w h : ℚ)
    (ex : Option String) : (canPlaceWidgetS g x y w h ex).1 = g := rfl

theorem scan_foldl_state {w h : ℚ} (g : GridService) (l : List (ℚ × ℚ))
    (acc : Option (ℚ × ℚ)) :
    l.foldl
      (fun (acc : GridService × Option (ℚ × ℚ)) q =>
        match acc.2 with
        | some _ => acc
        | none =>
          if canPlaceWidget acc.1 q.1 q.2 w h none = true then (acc.1, some q)
          else (acc.1, none))
      (g, acc) =
      (g, match acc with
          | some q => some q
          | none => l.find? fun q => canPlaceWidget g q.1 q.2 w h none) := by
  induction l generalizing acc with
  | nil => cases acc <;> rfl
  | cons a l ih =>
    cases acc with
    | some q => simpa using ih (some q)
    | none =>
      simp only [List.foldl_cons, List.find?_cons]
      cases hq : canPlaceWidget g a.1 a.2 w h none with
      | false =>
        simp only [hq, if_false, Bool.false_eq_true]
        simpa using ih none
      | true =>
        simp only [hq, if_true]
        simpa using ih (some a)

theorem findNearestFreePositionS_eq (g : GridService) (x y w h : ℚ) :
    findNearestFreePositionS g x y w h =
      (g, findNearestFreePosition g x y w h) := by
  unfold findNearestFreePositionS findNearestFreePosition
  simp only [snapToGridS, canPlaceWidgetS]
  cases hq : canPlaceWidget g (snapToGrid g.config x y).1
      (snapToGrid g.config x y).2 w h none with
  | true => simp [hq]
  | false =>
    simp only [hq, if_false, Bool.false_eq_true]
    rw [scan_foldl_state]
    cases hf : List.find?
        (fun (q : ℚ × ℚ) => canPlaceWidget g q.1 q.2 w h none)
        ((intRange 1
            (max ⌈w / g.config.cellSize⌉ ⌈h / g.config.cellSize⌉ * 2 + 1)).flatMap
          fun radius =>
            (ringOffsets radius).map fun (d : ℤ × ℤ) =>
              ((snapToGrid g.config x y).1 + (d.1 : ℚ) * g.config.cellSize,
               (snapToGrid g.config x y).2 + (d.2 : ℚ) * g.config.cellSize)) <;>
      simp [hf]

theorem applyOp_config (g : GridService) (op : GridOp) :
    (applyOp g op).config = g.config := by
  cases op with
  | reserve x y w h id => rfl
  | release id => rfl
  | snap x y => rfl
  | canPlace x y w h ex => rfl
  | findFree x y w h => rw [applyOp, findNearestFreePositionS_eq]
  | visualize => rfl
  | points => rfl

theorem applyOps_config (g : GridService) (ops : List GridOp) :
    (applyOps g ops).config = g.config := by
  induction ops generalizing g with
  | nil => rfl
  | cons op ops ih =>
    rw [applyOps, List.foldl_cons]
    rw [show List.foldl applyOp (applyOp g op) ops = applyOps (applyOp g op) ops from rfl]
    rw [ih, applyOp_config]

theorem wellFormed_applyOp (g : GridService) (op : GridOp)
    (hwf : WellFormed g) : WellFormed (applyOp g op) := by
  cases op with
  | reserve x y w h id => exact wellFormed_reserveGridSpace g x y w h id hwf
  | release id => exact wellFormed_releaseGridSpace g id hwf
  | snap x y => exact hwf
  | canPlace x y w h ex => exact hwf
  | findFree x y w h => rw [applyOp, findNearestFreePositionS_eq]; exact hwf
  | visualize => exact hwf
  | points => exact hwf

theorem snapToGrid_fixed (c : GridConfig) (hcell : c.cellSize ≠ 0)
    (ci ri : ℤ) (hci0 : 0 ≤ ci) (hci1 : ci ≤ colsZ c - 1) (hri0 : 0 ≤ ri)
    (hri1 : ri ≤ rowsZ c - 1) :
    snapToGrid c (c.padding + offsetX c + (ci : ℚ) * c.cellSize)
        (c.padding + offsetY c + (ri : ℚ) * c.cellSize) =
      (c.padding + offsetX c + (ci : ℚ) * c.cellSize,
       c.padding + offsetY c + (ri : ℚ) * c.cellSize) := by
  unfold snapToGrid
  dsimp only
  rw [show c.padding + offsetX c + (ci : ℚ) * c.cellSize - c.padding -
      offsetX c = (ci : ℚ) * c.cellSize from by ring]
  rw [show c.padding + offsetY c + (ri : ℚ) * c.cellSize - c.padding -
      offsetY c = (ri : ℚ) * c.cellSize from by ring]
  rw [mul_div_cancel_right₀ _ hcell, mul_div_cancel_right₀ _ hcell]
  rw [jsRound_intCast, jsRound_intCast]
  rw [min_eq_right hci1, max_eq_right hci0]
  rw [min_eq_right hri1, max_eq_right hri0]

theorem ringOffsets_eq_chebyshev (r : ℤ) :
    ringOffsets r = ringOffsetsChebyshev r := by
  unfold ringOffsets ringOffsetsChebyshev
  apply flatMap_congr
  intro dx hdx
  congr 1
  apply List.filter_congr
  intro dy hdy
  rw [mem_intRange] at hdx hdy
  have hx : |dx| ≤ r := abs_le.mpr ⟨by omega, by omega⟩
  have hy : |dy| ≤ r := abs_le.mpr ⟨by omega, by omega⟩
  apply decide_eq_decide.mpr
  constructor
  · rintro (hcase | hcase)
    · exact le_antisymm (max_le (le_of_eq hcase) hy)
        (hcase ▸ le_max_left |dx| |dy|)
    · exact le_antisymm (max_le hx (le_of_eq hcase))
        (hcase ▸ le_max_right |dx| |dy|)
  · intro hmax
    rcases max_cases |dx| |dy| with ⟨he, -⟩ | ⟨he, -⟩
    · exact Or.inl (he ▸ hmax)
    · exact Or.inr (he ▸ hmax)

theorem maxRadius_eq {w h cs : ℚ} (hcs : 0 < cs) :
    max ⌈w / cs⌉ ⌈h / cs⌉ * 2 = 2 * ⌈max w h / cs⌉ := by
  rw [← max_div_div_right hcs.le w h, mul_comm]
  congr 1
  exact (Int.ceil_mono.map_max).symm

theorem canPlaceWidget_reserve_init_disjoint (c : GridConfig)
    (x1 y1 w1 h1 : ℚ) (id : String) (x2 y2 w2 h2 : ℚ)
    (hin2 : coveredInBounds c x2 y2 w2 h2)
    (hdisj : coversDisjoint c x1 y1 w1 h1 x2 y2 w2 h2) :
    canPlaceWidget (reserveGridSpace (GridService.init c) x1 y1 w1 h1 id)
      x2 y2 w2 h2 none = true := by
  rw [canPlaceWidget_eq_true_iff]
  refine ⟨hin2, ?_⟩
  intro r cl hr1 hr2 hc1 hc2 p hp
  simp only [show (reserveGridSpace (GridService.init c) x1 y1 w1 h1
      id).config = c from rfl] at hr1 hr2 hc1 hc2
  rw [cellAtZ_reserveGridSpace] at hp
  obtain ⟨q, hq, hfq⟩ := Option.map_eq_some'.mp hp
  rw [show (GridService.init c).grid = initializeGrid c from rfl,
    cellAtZ_initializeGrid] at hq
  by_cases hb : 0 ≤ r ∧ r < ((rowsZ c).toNat : ℤ) ∧ 0 ≤ cl ∧
      cl < ((colsZ c).toNat : ℤ)
  · rw [if_pos hb] at hq
    obtain rfl : initCell c r cl = q := Option.some_inj.mp hq
    unfold coversDisjoint at hdisj
    rw [if_neg (by
      simp only [show (GridService.init c).config = c from rfl]
      omega)] at hfq
    subst hfq
    simp [initCell]
  · rw [if_neg hb] at hq
    simp at hq

theorem gridInv_iff (gs : GridService) :
    GridInv gs ↔
      ∀ (r cl : ℤ) (p : GridPoint), cellAtZ gs.grid r cl = some p →
        cellInv p := by
  constructor
  · intro hinv r cl p hp
    obtain ⟨row, hrow, hpm⟩ := cellAtZ_mem hp
    exact hinv row hrow p hpm
  · intro hall row hrow p hpm
    obtain ⟨n, hn⟩ := List.mem_iff_getElem?.mp hrow
    obtain ⟨m, hm⟩ := List.mem_iff_getElem?.mp hpm
    apply hall (n : ℤ) (m : ℤ)
    unfold cellAtZ
    rw [if_pos ⟨Int.natCast_nonneg n, Int.natCast_nonneg m⟩]
    simp only [Int.toNat_natCast]
    rw [hn]
    simpa using hm

theorem gridInv_init (c : GridConfig) : GridInv (GridService.init c) := by
  rw [gridInv_iff]
  intro r cl p hp
  rw [show (GridService.init c).grid = initializeGrid c from rfl,
    cellAtZ_initializeGrid] at hp
  by_cases hb : 0 ≤ r ∧ r < ((rowsZ c).toNat : ℤ) ∧ 0 ≤ cl ∧
      cl < ((colsZ c).toNat : ℤ)
  · rw [if_pos hb] at hp
    obtain rfl : initCell c r cl = p := Option.some_inj.mp hp
    exact ⟨fun hocc => by simp [initCell] at hocc, fun _ => rfl⟩
  · rw [if_neg hb] at hp
    simp at hp

theorem gridInv_applyOp (gs : GridService) (op : GridOp) (hop : opIdOk op)
    (hinv : GridInv gs) : GridInv (applyOp gs op) := by
  rw [gridInv_iff] at hinv ⊢
  cases op with
  | reserve x y w h id =>
    intro r cl p hp
    rw [show (applyOp gs (GridOp.reserve x y w h id)).grid =
        (reserveGridSpace gs x y w h id).grid from rfl,
      cellAtZ_reserveGridSpace] at hp
    obtain ⟨q, hq, hfq⟩ := Option.map_eq_some'.mp hp
    by_cases hcond : startRowOf gs.config y ≤ r ∧ r < endRowOf gs.config y h ∧
        startColOf gs.config x ≤ cl ∧ cl < endColOf gs.config x w
    · rw [if_pos hcond] at hfq
      subst hfq
      refine ⟨fun _ => ⟨by simp, ?_⟩, fun hocc => by simp at hocc⟩
      simp only [ne_eq, Option.some_inj]
      exact fun he => hop (he ▸ rfl)
    · rw [if_neg hcond] at hfq
      subst hfq
      exact hinv r cl q hq
  | release id =>
    intro r cl p hp
    rw [show (applyOp gs (GridOp.release id)).grid =
        (releaseGridSpace gs id).grid from rfl,
      cellAtZ_releaseGridSpace] at hp
    obtain ⟨q, hq, hfq⟩ := Option.map_eq_some'.mp hp
    by_cases hcond : q.widgetId = some id
    · rw [if_pos hcond] at hfq
      subst hfq
      exact ⟨fun hocc => by simp at hocc, fun _ => rfl⟩
    · rw [if_neg hcond] at hfq
      subst hfq
      exact hinv r cl q hq
  | snap x y => exact hinv
  | canPlace x y w h ex => exact hinv
  | findFree x y w h =>
    rw [show applyOp gs (GridOp.findFree x y w h) =
        (findNearestFreePositionS gs x y w h).1 from rfl,
      findNearestFreePositionS_eq]
    exact hinv
  | visualize => exact hinv
  | points => exact hinv

theorem applyOps_preserves_owned (c : GridConfig) (x y w h : ℚ) (id : String)
    (ops : List GridOp) :
    ∀ (gs : GridService), gs.config = c → WellFormed gs →
      (∀ op ∈ ops, opAvoids c x y w h id op) →
      (∀ r cl : ℤ, startRowOf c y ≤ r → r < endRowOf c y h →
        startColOf c x ≤ cl → cl < endColOf c x w →
        ∃ p, cellAtZ gs.grid r cl = some p ∧ p.widgetId = some id) →
      (applyOps gs ops).config = c ∧ WellFormed (applyOps gs ops) ∧
        ∀ r cl : ℤ, startRowOf c y ≤ r → r < endRowOf c y h →
          startColOf c x ≤ cl → cl < endColOf c x w →
          ∃ p, cellAtZ (applyOps gs ops).grid r cl = some p ∧
            p.widgetId = some id := by
  induction ops with
  | nil => exact fun gs hconf hwf _ howned => ⟨hconf, hwf, howned⟩
  | cons op ops ih =>
    intro gs hconf hwf hops howned
    rw [show applyOps gs (op :: ops) = applyOps (applyOp gs op) ops from rfl]
    apply ih
    · rw [applyOp_config]; exact hconf
    · exact wellFormed_applyOp _ _ hwf
    · exact fun op' hop' => hops op' (List.mem_cons_of_mem _ hop')
    · intro r cl hr1 hr2 hc1 hc2
      obtain ⟨p, hp, hpid⟩ := howned r cl hr1 hr2 hc1 hc2
      have havoid := hops op (List.mem_cons_self _ _)
      cases op with
      | reserve x' y' w' h' id' =>
        obtain ⟨hid', hdisj⟩ := havoid
        rw [show (applyOp gs (GridOp.reserve x' y' w' h' id')).grid =
            (reserveGridSpace gs x' y' w' h' id').grid from rfl,
          cellAtZ_reserveGridSpace, hp]
        simp only [Option.map_some']
        rw [if_neg (by
          unfold coversDisjoint at hdisj
          rw [hconf]
          omega)]
        exact ⟨p, rfl, hpid⟩
      | release id' =>
        rw [show (applyOp gs (GridOp.release id')).grid =
            (releaseGridSpace gs id').grid from rfl,
          cellAtZ_releaseGridSpace, hp]
        simp only [Option.map_some']
        rw [if_neg (by
          rw [hpid]
          simp only [ne_eq, Option.some_inj]
          exact fun he => havoid (he ▸ rfl))]
        exact ⟨p, rfl, hpid⟩
      | snap x' y' => exact ⟨p, hp, hpid⟩
      | canPlace x' y' w' h' ex => exact ⟨p, hp, hpid⟩
      | findFree x' y' w' h' =>
        rw [show applyOp gs (GridOp.findFree x' y' w' h') =
            (findNearestFreePositionS gs x' y' w' h').1 from rfl,
          findNearestFreePositionS_eq]
        exact ⟨p, hp, hpid⟩
      | visualize => exact ⟨p, hp, hpid⟩
      | points => exact ⟨p, hp, hpid⟩

theorem cfg800_colsZ : colsZ cfg800 = 76 := by
  norm_num [colsZ, availableWidth, cfg800]

theorem cfg800_rowsZ : rowsZ cfg800 = 44 := by
  norm_num [rowsZ, availableHeight, cfg800]

theorem cfg800_offsetX : offsetX cfg800 = 0 := by
  rw [offsetX, cfg800_colsZ]
  norm_num [availableWidth, cfg800]

theorem cfg800_offsetY : offsetY cfg800 = 0 := by
  rw [offsetY, cfg800_rowsZ]
  norm_num [availableHeight, cfg800]

theorem cfgTiny_colsZ : colsZ cfgTiny = 2 := by
  norm_num [colsZ, availableWidth, cfgTiny]

theorem cfgTiny_rowsZ : rowsZ cfgTiny = 2 := by
  norm_num [rowsZ, availableHeight, cfgTiny]

theorem cfgTiny_offsetX : offsetX cfgTiny = 0 := by
  rw [offsetX, cfgTiny_colsZ]
  norm_num [availableWidth, cfgTiny]

theorem cfgTiny_offsetY : offsetY cfgTiny = 0 := by
  rw [offsetY, cfgTiny_rowsZ]
  norm_num [availableHeight, cfgTiny]

theorem cfgNeg_colsZ : colsZ cfgNeg = 2 := by
  norm_num [colsZ, availableWidth, cfgNeg]

theorem cfgNeg_rowsZ : rowsZ cfgNeg = 2 := by
  norm_num [rowsZ, availableHeight, cfgNeg]

theorem cfgNeg_offsetX : offsetX cfgNeg = 0 := by
  rw [offsetX, cfgNeg_colsZ]
  norm_num [availableWidth, cfgNeg]

theorem cfgNeg_offsetY : offsetY cfgNeg = 0 := by
  rw [offsetY, cfgNeg_rowsZ]
  norm_num [availableHeight, cfgNeg]

theorem cfgNarrow_colsZ : colsZ cfgNarrow = -1 := by
  norm_num [colsZ, availableWidth, cfgNarrow]

theorem cfgNarrow_rowsZ : rowsZ cfgNarrow = 44 := by
  norm_num [rowsZ, availableHeight, cfgNarrow]

theorem ceil_eval (q : ℚ) (z : ℤ) (h : ⌊-q⌋ = -z) : ⌈q⌉ = z := by
  have h2 : ⌊-q⌋ = -⌈q⌉ := Int.floor_neg
  omega

/-! ## Claim theorems -/

/-- C8: `reserveGridSpace(x, y, w, h, id)` sets `occupied = true` and
`widgetId = id` on exactly the in-bounds cells of the covered range
`[startRow, endRow) × [startCol, endCol)` (floor for the start, ceil for
the end), unconditionally overwriting any prior owner; covered indices
outside the grid are silently skipped, and every cell outside the covered
range — and the config and grid shape — keep their exact prior values. -/
theorem C8_reserveGridSpace_frame_effect (g : GridService) (x y w h : ℚ)
    (id : String) :
    (reserveGridSpace g x y w h id).config = g.config ∧
    (reserveGridSpace g x y w h id).grid.length = g.grid.length ∧
    (∀ n : ℕ, ((reserveGridSpace g x y w h id).grid[n]?).map List.length =
      (g.grid[n]?).map List.length) ∧
    ∀ r cl : ℤ,
      cellAtZ (reserveGridSpace g x y w h id).grid r cl =
        (cellAtZ g.grid r cl).map fun p =>
          if startRowOf g.config y ≤ r ∧ r < endRowOf g.config y h ∧
              startColOf g.config x ≤ cl ∧ cl < endColOf g.config x w then
            { p with occupied := true, widgetId := some id }
          else p := by
  refine ⟨rfl, by simp [reserveGridSpace], ?_,
    cellAtZ_reserveGridSpace g x y w h id⟩
  intro n
  rw [show (reserveGridSpace g x y w h id).grid =
    g.grid.mapIdx (fun row rowCells =>
      if startRowOf g.config y ≤ (row : ℤ) ∧
          (row : ℤ) < endRowOf g.config y h then
        rowCells.mapIdx fun col p =>
          if startColOf g.config x ≤ (col : ℤ) ∧
              (col : ℤ) < endColOf g.config x w then
            { p with occupied := true, widgetId := some id }
          else p
      else rowCells) from rfl]
  rw [getElem?_mapIdx]
  cases hn : g.grid[n]? with
  | none => rfl
  | some row =>
    simp only [Option.map_some']
    by_cases hcond : startRowOf g.config y ≤ (n : ℤ) ∧
        (n : ℤ) < endRowOf g.config y h
    · rw [if_pos hcond]
      simp
    · rw [if_neg hcond]

/-- C9: the embedding of every public operation is a total function, and a
placement request whose non-empty covered cell range lies entirely outside
`[0, cols) × [0, rows)` makes `canPlaceWidget` return `false` (the bounds
check fails) rather than failing. -/
theorem C9_canPlaceWidget_outside_false (g : GridService) (x y w h : ℚ)
    (ex : Option String)
    (hnonempty : startColOf g.config x < endColOf g.config x w ∧
      startRowOf g.config y < endRowOf g.config y h)
    (houtside : endColOf g.config x w ≤ 0 ∨
      colsZ g.config ≤ startColOf g.config x ∨
      endRowOf g.config y h ≤ 0 ∨ rowsZ g.config ≤ startRowOf g.config y) :
    canPlaceWidget g x y w h ex = false := by
  unfold canPlaceWidget
  rw [if_pos (by omega)]

/-- C9 witness: `x = -1000` with a 100×100 rectangle on the cfg800 grid. -/
theorem C9_witness :
    (startColOf cfg800 (-1000) < endColOf cfg800 (-1000) 100 ∧
      startRowOf cfg800 0 < endRowOf cfg800 0 100) ∧
    (endColOf cfg800 (-1000) 100 ≤ 0) ∧
    canPlaceWidget (GridService.init cfg800) (-1000) 0 100 100 none = false := by
  have h1 : startColOf cfg800 (-1000) = -102 := by
    rw [startColOf, cfg800_offsetX]
    norm_num [cfg800]
  have h2 : endColOf cfg800 (-1000) 100 = -92 := by
    rw [endColOf, cfg800_offsetX]
    exact ceil_eval _ _ (by norm_num [cfg800])
  have h3 : startRowOf cfg800 0 = -2 := by
    rw [startRowOf, cfg800_offsetY]
    norm_num [cfg800]
  have h4 : endRowOf cfg800 0 100 = 8 := by
    rw [endRowOf, cfg800_offsetY]
    exact ceil_eval _ _ (by norm_num [cfg800])
  have hA : startColOf cfg800 (-1000) < endColOf cfg800 (-1000) 100 := by
    omega
  have hB : startRowOf cfg800 0 < endRowOf cfg800 0 100 := by omega
  have hC : endColOf cfg800 (-1000) 100 ≤ 0 := by omega
  exact ⟨⟨hA, hB⟩, hC,
    C9_canPlaceWidget_outside_false (GridService.init cfg800)
      (-1000) 0 100 100 none ⟨hA, hB⟩ (Or.inl hC)⟩

/-- C10: `findNearestFreePosition` is a pure query — the state coming out
of its state-passing translation is exactly the state that went in
(config and every cell of the grid unchanged), and the returned position
is the one computed by the pure function. -/
theorem C10_findNearestFreePosition_pure (g : GridService) (x y w h : ℚ) :
    (findNearestFreePositionS g x y w h).1.config = g.config ∧
    (findNearestFreePositionS g x y w h).1.grid = g.grid ∧
    (findNearestFreePositionS g x y w h).2 =
      findNearestFreePosition g x y w h := by
  rw [findNearestFreePositionS_eq]
  exact ⟨rfl, rfl, rfl⟩

/-- C7: on a grid with at least one column and one row, `snapToGrid`
returns `padding + offset + index * cellSize` per axis for clamped
indices in `[0, cols-1] × [0, rows-1]` — never out of bounds — and is
idempotent. -/
theorem C7_snapToGrid_clamped_idempotent (c : GridConfig) (x y : ℚ)
    (hcols : 1 ≤ colsZ c) (hrows : 1 ≤ rowsZ c) :
    (∃ ci ri : ℤ, 0 ≤ ci ∧ ci ≤ colsZ c - 1 ∧ 0 ≤ ri ∧ ri ≤ rowsZ c - 1 ∧
      snapToGrid c x y =
        (c.padding + offsetX c + (ci : ℚ) * c.cellSize,
         c.padding + offsetY c + (ri : ℚ) * c.cellSize)) ∧
    snapToGrid c (snapToGrid c x y).1 (snapToGrid c x y).2 =
      snapToGrid c x y := by
  have hcell : c.cellSize ≠ 0 := cellSize_ne_zero_of_one_le_colsZ c hcols
  set ci := max 0 (min (colsZ c - 1)
    (jsRound ((x - c.padding - offsetX c) / c.cellSize)))
  set ri := max 0 (min (rowsZ c - 1)
    (jsRound ((y - c.padding - offsetY c) / c.cellSize)))
  have hci0 : 0 ≤ ci := le_max_left _ _
  have hci1 : ci ≤ colsZ c - 1 := max_le (by omega) (min_le_left _ _)
  have hri0 : 0 ≤ ri := le_max_left _ _
  have hri1 : ri ≤ rowsZ c - 1 := max_le (by omega) (min_le_left _ _)
  have hsnap : snapToGrid c x y =
      (c.padding + offsetX c + (ci : ℚ) * c.cellSize,
       c.padding + offsetY c + (ri : ℚ) * c.cellSize) := rfl
  refine ⟨⟨ci, ri, hci0, hci1, hri0, hri1, hsnap⟩, ?_⟩
  rw [hsnap]
  exact snapToGrid_fixed c hcell ci ri hci0 hci1 hri0 hri1

/-- C7 witness: the 2×2 grid `cfgTiny` with the out-of-grid point
`(5, -3)`. -/
theorem C7_witness :
    (1 ≤ colsZ cfgTiny ∧ 1 ≤ rowsZ cfgTiny) ∧
    ((∃ ci ri : ℤ, 0 ≤ ci ∧ ci ≤ colsZ cfgTiny - 1 ∧ 0 ≤ ri ∧
        ri ≤ rowsZ cfgTiny - 1 ∧
        snapToGrid cfgTiny 5 (-3) =
          (cfgTiny.padding + offsetX cfgTiny + (ci : ℚ) * cfgTiny.cellSize,
           cfgTiny.padding + offsetY cfgTiny + (ri : ℚ) * cfgTiny.cellSize)) ∧
      snapToGrid cfgTiny (snapToGrid cfgTiny 5 (-3)).1
          (snapToGrid cfgTiny 5 (-3)).2 =
        snapToGrid cfgTiny 5 (-3)) := by
  have h1 : 1 ≤ colsZ cfgTiny := by rw [cfgTiny_colsZ]; omega
  have h2 : 1 ≤ rowsZ cfgTiny := by rw [cfgTiny_rowsZ]; omega
  exact ⟨⟨h1, h2⟩, C7_snapToGrid_clamped_idempotent cfgTiny 5 (-3) h1 h2⟩

/-- C6 (amended): for every config with `cellSize ≠ 0`, the grid has
`max 0 ⌊availableHeight/cellSize⌋` rows, each of length
`max 0 ⌊availableWidth/cellSize⌋`, and each in-range cell is anchored at
`padding + offset + index * cellSize` per axis (`initCell`); columns are
`max 0 ⌊…⌋`, not the signed `⌊…⌋` itself, which differ when the floor is
negative. -/
theorem C6_initializeGrid_dimensions (c : GridConfig)
    (hcell : c.cellSize ≠ 0) :
    (initializeGrid c).length = (rowsZ c).toNat ∧
    (∀ row ∈ initializeGrid c, row.length = (colsZ c).toNat) ∧
    (∀ r cl : ℤ, 0 ≤ r → r < rowsZ c → 0 ≤ cl → cl < colsZ c →
      cellAtZ (initializeGrid c) r cl = some (initCell c r cl)) := by
  refine ⟨initializeGrid_length c, ?_, ?_⟩
  · intro row hrow
    obtain ⟨n, hn⟩ := List.mem_iff_getElem?.mp hrow
    exact (wellFormed_init c).2 n row hn
  · intro r cl h0r hr h0c hc
    rw [cellAtZ_initializeGrid]
    rw [if_pos (by omega)]

/-- C6 witness: cfg800 has a 44-row grid with 76 cells in every row. -/
theorem C6_witness :
    cfg800.cellSize ≠ 0 ∧ colsZ cfg800 = 76 ∧ rowsZ cfg800 = 44 ∧
    (initializeGrid cfg800).length = 44 ∧
    ∀ row ∈ initializeGrid cfg800, row.length = 76 := by
  have hcell : cfg800.cellSize ≠ 0 := by norm_num [cfg800]
  obtain ⟨hlen, hrows, -⟩ := C6_initializeGrid_dimensions cfg800 hcell
  refine ⟨hcell, cfg800_colsZ, cfg800_rowsZ, ?_, ?_⟩
  · rw [hlen, cfg800_rowsZ]
    rfl
  · intro row hrow
    rw [hrows row hrow, cfg800_colsZ]
    rfl

/-- C6 counterexample: under `{cellSize: 10, padding: 20, width: 30,
height: 480}` the claim's "grid has exactly `floor(availH/cell)` rows and
every row has length `cols = floor(availW/cell)`" is false: the grid has
44 rows but each has length 0, while `floor(availableWidth/cellSize) =
-1`. -/
theorem C6_counterexample :
    ¬(((GridService.init cfgNarrow).grid.length : ℤ) = rowsZ cfgNarrow ∧
      ∀ row ∈ (GridService.init cfgNarrow).grid,
        ((row.length : ℤ) = colsZ cfgNarrow)) := by
  rintro ⟨-, h2⟩
  have hlen : (GridService.init cfgNarrow).grid.length = 44 := by
    rw [show (GridService.init cfgNarrow).grid = initializeGrid cfgNarrow
      from rfl, initializeGrid_length, cfgNarrow_rowsZ]
    rfl
  have hne : (GridService.init cfgNarrow).grid ≠ [] := by
    intro h0
    rw [h0] at hlen
    simp at hlen
  obtain ⟨row, hmem⟩ := List.exists_mem_of_ne_nil _ hne
  have hrowlen := h2 row hmem
  rw [cfgNarrow_colsZ] at hrowlen
  omega

/-- C5 (amended): for a config with positive `cellSize` whose available
width or height (after padding) is non-positive, construction yields a
grid with no cells; every `canPlaceWidget` call with positive width and
height returns false on any state carrying that config; and
`reserveGridSpace` leaves any cell-free grid unchanged — a silent
degradation with no failure. -/
theorem C5_degenerate_config (c : GridConfig) (hcell : 0 < c.cellSize)
    (hdeg : availableWidth c ≤ 0 ∨ availableHeight c ≤ 0) :
    (∀ row ∈ initializeGrid c, row = []) ∧
    (∀ (g : GridService), g.config = c → ∀ (x y w h : ℚ) (ex : Option String),
      0 < w → 0 < h → canPlaceWidget g x y w h ex = false) ∧
    (∀ (g : GridService), g.config = c → (∀ row ∈ g.grid, row = []) →
      ∀ (x y w h : ℚ) (id : String), reserveGridSpace g x y w h id = g) := by
  refine ⟨?_, ?_, ?_⟩
  · -- no cells
    intro row hrow
    rcases hdeg with hW | hH
    · have hcols : colsZ c ≤ 0 := by
        apply Int.floor_nonpos
        exact div_nonpos_iff.mpr (Or.inr ⟨hW, hcell.le⟩)
      unfold initializeGrid at hrow
      simp only [List.mem_map] at hrow
      obtain ⟨n, -, hrow⟩ := hrow
      rw [show (colsZ c).toNat = 0 from by omega] at hrow
      simp at hrow
      exact hrow
    · have hrows : rowsZ c ≤ 0 := by
        apply Int.floor_nonpos
        exact div_nonpos_iff.mpr (Or.inr ⟨hH, hcell.le⟩)
      unfold initializeGrid at hrow
      rw [show (rowsZ c).toNat = 0 from by omega] at hrow
      simp at hrow
  · -- canPlaceWidget is false for positive rectangles
    intro g hgc x y w h ex hw hh
    unfold canPlaceWidget
    rw [hgc]
    rw [if_pos ?_]
    rcases hdeg with hW | hH
    · have hcols : colsZ c ≤ 0 := by
        apply Int.floor_nonpos
        exact div_nonpos_iff.mpr (Or.inr ⟨hW, hcell.le⟩)
      by_cases hsc : startColOf c x < 0
      · exact Or.inl hsc
      · have hnom : 0 ≤ (x - c.padding - offsetX c) / c.cellSize :=
          Int.floor_nonneg.mp (by unfold startColOf at hsc; omega)
        have hnum : 0 ≤ x - c.padding - offsetX c := by
          by_contra hneg
          exact absurd hnom
            (not_le.mpr (div_neg_of_neg_of_pos (by linarith) hcell))
        have hpos : 0 < (x + w - c.padding - offsetX c) / c.cellSize :=
          div_pos (by linarith) hcell
        have hec : 0 < endColOf c x w := by
          unfold endColOf
          exact Int.ceil_pos.mpr hpos
        exact Or.inr (Or.inr (Or.inl (by omega)))
    · have hrows : rowsZ c ≤ 0 := by
        apply Int.floor_nonpos
        exact div_nonpos_iff.mpr (Or.inr ⟨hH, hcell.le⟩)
      by_cases hsr : startRowOf c y < 0
      · exact Or.inr (Or.inl hsr)
      · have hnom : 0 ≤ (y - c.padding - offsetY c) / c.cellSize :=
          Int.floor_nonneg.mp (by unfold startRowOf at hsr; omega)
        have hnum : 0 ≤ y - c.padding - offsetY c := by
          by_contra hneg
          exact absurd hnom
            (not_le.mpr (div_neg_of_neg_of_pos (by linarith) hcell))
        have hpos : 0 < (y + h - c.padding - offsetY c) / c.cellSize :=
          div_pos (by linarith) hcell
        have her : 0 < endRowOf c y h := by
          unfold endRowOf
          exact Int.ceil_pos.mpr hpos
        exact Or.inr (Or.inr (Or.inr (by omega)))
  · -- reserveGridSpace is a no-op on a cell-free grid
    intro g hgc hempty x y w h id
    unfold reserveGridSpace
    cases g with
    | mk cfg grid =>
      simp only [GridService.mk.injEq, true_and]
      apply mapIdx_eq_self
      intro i row hi
      have hrownil : row = [] := hempty row (List.getElem?_mem hi)
      subst hrownil
      by_cases hcond : startRowOf cfg y ≤ (i : ℤ) ∧ (i : ℤ) < endRowOf cfg y h
      · rw [if_pos hcond]
        rfl
      · rw [if_neg hcond]

/-- C5 witness: `{cellSize: 10, padding: 20, width: 30, height: 480}` has
positive cell size and negative available width: no cells, placement of a
positive rectangle refused, reservation a no-op. -/
theorem C5_witness :
    (0 < cfgNarrow.cellSize ∧ availableWidth cfgNarrow ≤ 0) ∧
    (∀ row ∈ initializeGrid cfgNarrow, row = []) ∧
    canPlaceWidget (GridService.init cfgNarrow) 0 0 5 5 none = false ∧
    reserveGridSpace (GridService.init cfgNarrow) 0 0 5 5 "a" =
      GridService.init cfgNarrow := by
  have h1 : 0 < cfgNarrow.cellSize := by norm_num [cfgNarrow]
  have h2 : availableWidth cfgNarrow ≤ 0 := by
    norm_num [availableWidth, cfgNarrow]
  obtain ⟨hcells, hcp, hres⟩ := C5_degenerate_config cfgNarrow h1 (Or.inl h2)
  exact ⟨⟨h1, h2⟩, hcells,
    hcp (GridService.init cfgNarrow) rfl 0 0 5 5 none (by norm_num)
      (by norm_num),
    hres (GridService.init cfgNarrow) rfl hcells 0 0 5 5 "a"⟩

/-- C5 counterexample: `{cellSize: -5, padding: 10, width: 10, height:
10}` has `cellSize ≤ 0`, yet the grid has 2 rows (not zero) and
`canPlaceWidget(10, 10, -10, -10)` returns true (not false): negative
cell size with negative available area yields a positive cell count. -/
theorem C5_counterexample :
    cfgNeg.cellSize ≤ 0 ∧ (GridService.init cfgNeg).grid.length = 2 ∧
    canPlaceWidget (GridService.init cfgNeg) 10 10 (-10) (-10) none = true := by
  have hsc : startColOf cfgNeg 10 = 0 := by
    rw [startColOf, cfgNeg_offsetX]
    norm_num [cfgNeg]
  have hec : endColOf cfgNeg 10 (-10) = 2 := by
    rw [endColOf, cfgNeg_offsetX]
    exact ceil_eval _ _ (by norm_num [cfgNeg])
  have hsr : startRowOf cfgNeg 10 = 0 := by
    rw [startRowOf, cfgNeg_offsetY]
    norm_num [cfgNeg]
  have her : endRowOf cfgNeg 10 (-10) = 2 := by
    rw [endRowOf, cfgNeg_offsetY]
    exact ceil_eval _ _ (by norm_num [cfgNeg])
  have hcolsZ := cfgNeg_colsZ
  have hrowsZ := cfgNeg_rowsZ
  refine ⟨by norm_num [cfgNeg], ?_, ?_⟩
  · rw [show (GridService.init cfgNeg).grid = initializeGrid cfgNeg from rfl,
      initializeGrid_length, cfgNeg_rowsZ]
    rfl
  · rw [canPlaceWidget_eq_true_iff]
    constructor
    · show coveredInBounds (GridService.init cfgNeg).config 10 10 (-10) (-10)
      unfold coveredInBounds
      rw [show (GridService.init cfgNeg).config = cfgNeg from rfl]
      exact ⟨by omega, by omega, by omega, by omega⟩
    · intro r cl hr1 hr2 hc1 hc2 p hp
      simp only [show (GridService.init cfgNeg).config = cfgNeg from rfl]
        at hr1 hr2 hc1 hc2
      rw [show (GridService.init cfgNeg).grid = initializeGrid cfgNeg
        from rfl, cellAtZ_initializeGrid] at hp
      have hcond : 0 ≤ r ∧ r < ((rowsZ cfgNeg).toNat : ℤ) ∧ 0 ≤ cl ∧
          cl < ((colsZ cfgNeg).toNat : ℤ) := by omega
      rw [if_pos hcond] at hp
      obtain rfl : initCell cfgNeg r cl = p := Option.some_inj.mp hp
      simp [initCell]

/-- C2 (amended): on a well-formed grid, for every rectangle whose covered
cell range is in bounds and non-empty and every id, immediately after
`reserveGridSpace(x, y, w, h, id)`: `canPlaceWidget(x, y, w, h)` with no
exclude id returns false, and with `excludeId = id` returns true.  (The
spec's cfg800 scenario is exercised in the witness.) -/
theorem C2_reserve_then_canPlaceWidget (g : GridService) (x y w h : ℚ)
    (id : String) (hwf : WellFormed g)
    (hin : coveredInBounds g.config x y w h)
    (hne : startColOf g.config x < endColOf g.config x w ∧
      startRowOf g.config y < endRowOf g.config y h) :
    canPlaceWidget (reserveGridSpace g x y w h id) x y w h none = false ∧
    canPlaceWidget (reserveGridSpace g x y w h id) x y w h (some id) = true := by
  obtain ⟨hin1, hin2, hin3, hin4⟩ := hin
  have hcfg : (reserveGridSpace g x y w h id).config = g.config := rfl
  constructor
  · rw [canPlaceWidget_eq_false_iff]
    intro htrue
    rw [canPlaceWidget_eq_true_iff] at htrue
    obtain ⟨-, hcells⟩ := htrue
    obtain ⟨q, hq⟩ := @cellAtZ_isSome_of_wellFormed g hwf
      (startRowOf g.config y) (startColOf g.config x)
      hin2 (by omega) hin1 (by omega)
    have hp : cellAtZ (reserveGridSpace g x y w h id).grid
        (startRowOf g.config y) (startColOf g.config x) =
        some { q with occupied := true, widgetId := some id } := by
      rw [cellAtZ_reserveGridSpace, hq]
      simp only [Option.map_some']
      rw [if_pos (by omega)]
    have := hcells (startRowOf g.config y) (startColOf g.config x)
      (by rw [hcfg]) (by rw [hcfg]; omega) (by rw [hcfg])
      (by rw [hcfg]; omega) _ hp
    simp at this
  · rw [canPlaceWidget_eq_true_iff]
    refine ⟨⟨by rw [hcfg]; omega, by rw [hcfg]; omega, by rw [hcfg]; omega,
      by rw [hcfg]; omega⟩, ?_⟩
    intro r cl hr1 hr2 hc1 hc2 p hp
    rw [hcfg] at hr1 hr2 hc1 hc2
    rw [cellAtZ_reserveGridSpace] at hp
    obtain ⟨q, -, hfq⟩ := Option.map_eq_some'.mp hp
    rw [if_pos (by omega)] at hfq
    subst hfq
    simp

/-- C2 counterexample: for the zero-size rectangle `(0, 0, 0, 0)` on the
2×2 grid, `canPlaceWidget` right after `reserveGridSpace` of the same
rectangle returns true, not false: the covered cell range is empty, so
nothing was reserved and nothing blocks placement. -/
theorem C2_counterexample :
    canPlaceWidget (reserveGridSpace (GridService.init cfgTiny) 0 0 0 0 "a")
      0 0 0 0 none = true := by
  have hsc : startColOf cfgTiny 0 = 0 := by
    rw [startColOf, cfgTiny_offsetX]
    norm_num [cfgTiny]
  have hec : endColOf cfgTiny 0 0 = 0 := by
    rw [endColOf, cfgTiny_offsetX]
    exact ceil_eval _ _ (by norm_num [cfgTiny])
  have hsr : startRowOf cfgTiny 0 = 0 := by
    rw [startRowOf, cfgTiny_offsetY]
    norm_num [cfgTiny]
  have her : endRowOf cfgTiny 0 0 = 0 := by
    rw [endRowOf, cfgTiny_offsetY]
    exact ceil_eval _ _ (by norm_num [cfgTiny])
  have hcolsZ := cfgTiny_colsZ
  have hrowsZ := cfgTiny_rowsZ
  rw [canPlaceWidget_eq_true_iff]
  constructor
  · show coveredInBounds
      (reserveGridSpace (GridService.init cfgTiny) 0 0 0 0 "a").config 0 0 0 0
    unfold coveredInBounds
    rw [show (reserveGridSpace (GridService.init cfgTiny) 0 0 0 0 "a").config =
      cfgTiny from rfl]
    exact ⟨by omega, by omega, by omega, by omega⟩
  · intro r cl hr1 hr2 hc1 hc2 p hp
    simp only [show (reserveGridSpace (GridService.init cfgTiny) 0 0 0 0
      "a").config = cfgTiny from rfl] at hr1 hr2 hc1 hc2
    omega

/-- C2 witness: the spec's cfg800 scenario — reserve `(20,20,300,200)` as
`"a"`; then `canPlaceWidget(20,20,300,200)` is false,
`canPlaceWidget(20,20,300,200,"a")` is true, and the non-overlapping
`canPlaceWidget(320,20,100,100)` is true. -/
theorem C2_witness :
    WellFormed (GridService.init cfg800) ∧
    coveredInBounds cfg800 20 20 300 200 ∧
    (startColOf cfg800 20 < endColOf cfg800 20 300 ∧
      startRowOf cfg800 20 < endRowOf cfg800 20 200) ∧
    canPlaceWidget
      (reserveGridSpace (GridService.init cfg800) 20 20 300 200 "a")
      20 20 300 200 none = false ∧
    canPlaceWidget
      (reserveGridSpace (GridService.init cfg800) 20 20 300 200 "a")
      20 20 300 200 (some "a") = true ∧
    canPlaceWidget
      (reserveGridSpace (GridService.init cfg800) 20 20 300 200 "a")
      320 20 100 100 none = true := by
  have hsc : startColOf cfg800 20 = 0 := by
    rw [startColOf, cfg800_offsetX]
    norm_num [cfg800]
  have hec : endColOf cfg800 20 300 = 30 := by
    rw [endColOf, cfg800_offsetX]
    exact ceil_eval _ _ (by norm_num [cfg800])
  have hsr : startRowOf cfg800 20 = 0 := by
    rw [startRowOf, cfg800_offsetY]
    norm_num [cfg800]
  have her : endRowOf cfg800 20 200 = 20 := by
    rw [endRowOf, cfg800_offsetY]
    exact ceil_eval _ _ (by norm_num [cfg800])
  have hsc2 : startColOf cfg800 320 = 30 := by
    rw [startColOf, cfg800_offsetX]
    norm_num [cfg800]
  have hec2 : endColOf cfg800 320 100 = 40 := by
    rw [endColOf, cfg800_offsetX]
    exact ceil_eval _ _ (by norm_num [cfg800])
  have her2 : endRowOf cfg800 20 100 = 10 := by
    rw [endRowOf, cfg800_offsetY]
    exact ceil_eval _ _ (by norm_num [cfg800])
  have hcolsZ := cfg800_colsZ
  have hrowsZ := cfg800_rowsZ
  have hwf : WellFormed (GridService.init cfg800) := wellFormed_init cfg800
  have hin : coveredInBounds cfg800 20 20 300 200 :=
    ⟨by omega, by omega, by omega, by omega⟩
  have hne : startColOf cfg800 20 < endColOf cfg800 20 300 ∧
      startRowOf cfg800 20 < endRowOf cfg800 20 200 := ⟨by omega, by omega⟩
  obtain ⟨hfalse, htrue⟩ := C2_reserve_then_canPlaceWidget
    (GridService.init cfg800) 20 20 300 200 "a" hwf hin hne
  refine ⟨hwf, hin, hne, hfalse, htrue, ?_⟩
  exact canPlaceWidget_reserve_init_disjoint cfg800 20 20 300 200 "a"
    320 20 100 100 ⟨by omega, by omega, by omega, by omega⟩
    (Or.inl (by omega))

/-- C3 (amended): on a well-formed grid, if `reserveGridSpace(x,y,w,h,id)`
is followed by any operations on other ids whose reservations do not
touch the rectangle's covered cell range (which must be in bounds), then
`releaseGridSpace(id)` followed by `canPlaceWidget(x, y, w, h)` with no
exclude id returns true: releasing the id fully frees its rectangle.  (An
intervening overlapping reserve by another id breaks the property — see
the counterexample.) -/
theorem C3_release_frees_rectangle (g : GridService) (x y w h : ℚ)
    (id : String) (ops : List GridOp) (hwf : WellFormed g)
    (hin : coveredInBounds g.config x y w h)
    (hops : ∀ op ∈ ops, opAvoids g.config x y w h id op) :
    canPlaceWidget
      (releaseGridSpace (applyOps (reserveGridSpace g x y w h id) ops) id)
      x y w h none = true := by
  obtain ⟨hin1, hin2, hin3, hin4⟩ := hin
  have hg1wf : WellFormed (reserveGridSpace g x y w h id) :=
    wellFormed_reserveGridSpace g x y w h id hwf
  have howned1 : ∀ r cl : ℤ, startRowOf g.config y ≤ r →
      r < endRowOf g.config y h → startColOf g.config x ≤ cl →
      cl < endColOf g.config x w →
      ∃ p, cellAtZ (reserveGridSpace g x y w h id).grid r cl = some p ∧
        p.widgetId = some id := by
    intro r cl hr1 hr2 hc1 hc2
    obtain ⟨q, hq⟩ := @cellAtZ_isSome_of_wellFormed g hwf
      r cl (by omega) (by omega) (by omega) (by omega)
    refine ⟨{ q with occupied := true, widgetId := some id }, ?_, rfl⟩
    rw [cellAtZ_reserveGridSpace, hq]
    simp only [Option.map_some']
    rw [if_pos (by omega)]
  obtain ⟨hconf, hwf2, howned⟩ := applyOps_preserves_owned g.config x y w h
    id ops (reserveGridSpace g x y w h id) rfl hg1wf hops howned1
  have hcfgR : (releaseGridSpace
      (applyOps (reserveGridSpace g x y w h id) ops) id).config =
      g.config := by
    rw [config_releaseGridSpace, hconf]
  rw [canPlaceWidget_eq_true_iff]
  constructor
  · unfold coveredInBounds
    rw [hcfgR]
    exact ⟨hin1, hin2, hin3, hin4⟩
  · intro r cl hr1 hr2 hc1 hc2 p hp
    rw [hcfgR] at hr1 hr2 hc1 hc2
    obtain ⟨q, hq, hqid⟩ := howned r cl hr1 hr2 hc1 hc2
    rw [cellAtZ_releaseGridSpace, hq] at hp
    simp only [Option.map_some'] at hp
    rw [if_pos hqid] at hp
    obtain rfl := Option.some_inj.mp hp
    simp

/-- C3 counterexample: on the 2×2 grid, reserve `(0,0,2,2)` as `"a"`,
then reserve the overlapping `(0,0,1,1)` as `"b"` (an operation on
another id in between), release `"a"`: `canPlaceWidget(0,0,2,2)` is false,
not true, because cell `(0,0)` is still owned by `"b"` — reservation
overwrote `"a"`'s cell, and releasing `"a"` did not free it. -/
theorem C3_counterexample :
    canPlaceWidget
      (releaseGridSpace
        (reserveGridSpace
          (reserveGridSpace (GridService.init cfgTiny) 0 0 2 2 "a")
          0 0 1 1 "b")
        "a")
      0 0 2 2 none = false := by
  have hsc : startColOf cfgTiny 0 = 0 := by
    rw [startColOf, cfgTiny_offsetX]
    norm_num [cfgTiny]
  have hec2 : endColOf cfgTiny 0 2 = 2 := by
    rw [endColOf, cfgTiny_offsetX]
    exact ceil_eval _ _ (by norm_num [cfgTiny])
  have hec1 : endColOf cfgTiny 0 1 = 1 := by
    rw [endColOf, cfgTiny_offsetX]
    exact ceil_eval _ _ (by norm_num [cfgTiny])
  have hsr : startRowOf cfgTiny 0 = 0 := by
    rw [startRowOf, cfgTiny_offsetY]
    norm_num [cfgTiny]
  have her2 : endRowOf cfgTiny 0 2 = 2 := by
    rw [endRowOf, cfgTiny_offsetY]
    exact ceil_eval _ _ (by norm_num [cfgTiny])
  have her1 : endRowOf cfgTiny 0 1 = 1 := by
    rw [endRowOf, cfgTiny_offsetY]
    exact ceil_eval _ _ (by norm_num [cfgTiny])
  have hcolsZ := cfgTiny_colsZ
  have hrowsZ := cfgTiny_rowsZ
  rw [canPlaceWidget_eq_false_iff]
  intro htrue
  rw [canPlaceWidget_eq_true_iff] at htrue
  obtain ⟨-, hcells⟩ := htrue
  have hcell00 : cellAtZ (GridService.init cfgTiny).grid 0 0 =
      some (initCell cfgTiny 0 0) := by
    rw [show (GridService.init cfgTiny).grid = initializeGrid cfgTiny
      from rfl, cellAtZ_initializeGrid]
    rw [if_pos (by omega)]
  have hcellA : cellAtZ
      (reserveGridSpace (GridService.init cfgTiny) 0 0 2 2 "a").grid 0 0 =
      some { initCell cfgTiny 0 0 with occupied := true, widgetId := some "a" } := by
    rw [cellAtZ_reserveGridSpace, hcell00]
    simp only [Option.map_some']
    rw [if_pos (by
      simp only [show (GridService.init cfgTiny).config = cfgTiny from rfl]
      omega)]
  have hcellB : cellAtZ
      (reserveGridSpace
        (reserveGridSpace (GridService.init cfgTiny) 0 0 2 2 "a")
        0 0 1 1 "b").grid 0 0 =
      some { initCell cfgTiny 0 0 with occupied := true, widgetId := some "b" } := by
    rw [cellAtZ_reserveGridSpace, hcellA]
    simp only [Option.map_some']
    rw [if_pos (by
      simp only [show (reserveGridSpace (GridService.init cfgTiny) 0 0 2 2
        "a").config = cfgTiny from rfl]
      omega)]
  have hcellR : cellAtZ
      (releaseGridSpace
        (reserveGridSpace
          (reserveGridSpace (GridService.init cfgTiny) 0 0 2 2 "a")
          0 0 1 1 "b")
        "a").grid 0 0 =
      some { initCell cfgTiny 0 0 with occupied := true, widgetId := some "b" } := by
    rw [cellAtZ_releaseGridSpace, hcellB]
    simp only [Option.map_some']
    rw [if_neg (by simp)]
  have := hcells 0 0
    (by simp only [show (releaseGridSpace
      (reserveGridSpace
        (reserveGridSpace (GridService.init cfgTiny) 0 0 2 2 "a")
        0 0 1 1 "b") "a").config = cfgTiny from rfl]; omega)
    (by simp only [show (releaseGridSpace
      (reserveGridSpace
        (reserveGridSpace (GridService.init cfgTiny) 0 0 2 2 "a")
        0 0 1 1 "b") "a").config = cfgTiny from rfl]; omega)
    (by simp only [show (releaseGridSpace
      (reserveGridSpace
        (reserveGridSpace (GridService.init cfgTiny) 0 0 2 2 "a")
        0 0 1 1 "b") "a").config = cfgTiny from rfl]; omega)
    (by simp only [show (releaseGridSpace
      (reserveGridSpace
        (reserveGridSpace (GridService.init cfgTiny) 0 0 2 2 "a")
        0 0 1 1 "b") "a").config = cfgTiny from rfl]; omega)
    _ hcellR
  simp at this

/-- C3 witness: reserve `(0,0,1,1)` as `"a"` on the 2×2 grid, perform a
disjoint reserve `(1,1,1,1)` as `"b"` in between, release `"a"`: the
original rectangle is placeable again. -/
theorem C3_witness :
    WellFormed (GridService.init cfgTiny) ∧
    coveredInBounds cfgTiny 0 0 1 1 ∧
    canPlaceWidget
      (releaseGridSpace
        (applyOps (reserveGridSpace (GridService.init cfgTiny) 0 0 1 1 "a")
          [GridOp.reserve 1 1 1 1 "b"])
        "a")
      0 0 1 1 none = true := by
  have hsc : startColOf cfgTiny 0 = 0 := by
    rw [startColOf, cfgTiny_offsetX]
    norm_num [cfgTiny]
  have hec1 : endColOf cfgTiny 0 1 = 1 := by
    rw [endColOf, cfgTiny_offsetX]
    exact ceil_eval _ _ (by norm_num [cfgTiny])
  have hsr : startRowOf cfgTiny 0 = 0 := by
    rw [startRowOf, cfgTiny_offsetY]
    norm_num [cfgTiny]
  have her1 : endRowOf cfgTiny 0 1 = 1 := by
    rw [endRowOf, cfgTiny_offsetY]
    exact ceil_eval _ _ (by norm_num [cfgTiny])
  have hsc1 : startColOf cfgTiny 1 = 1 := by
    rw [startColOf, cfgTiny_offsetX]
    norm_num [cfgTiny]
  have hec11 : endColOf cfgTiny 1 1 = 2 := by
    rw [endColOf, cfgTiny_offsetX]
    exact ceil_eval _ _ (by norm_num [cfgTiny])
  have hsr1 : startRowOf cfgTiny 1 = 1 := by
    rw [startRowOf, cfgTiny_offsetY]
    norm_num [cfgTiny]
  have her11 : endRowOf cfgTiny 1 1 = 2 := by
    rw [endRowOf, cfgTiny_offsetY]
    exact ceil_eval _ _ (by norm_num [cfgTiny])
  have hcolsZ := cfgTiny_colsZ
  have hrowsZ := cfgTiny_rowsZ
  have hwf : WellFormed (GridService.init cfgTiny) := wellFormed_init cfgTiny
  have hin : coveredInBounds cfgTiny 0 0 1 1 :=
    ⟨by omega, by omega, by omega, by omega⟩
  refine ⟨hwf, hin, ?_⟩
  exact C3_release_frees_rectangle (GridService.init cfgTiny) 0 0 1 1 "a"
    [GridOp.reserve 1 1 1 1 "b"] hwf hin
    (by
      intro op hop
      simp only [List.mem_singleton] at hop
      subst hop
      exact ⟨by decide, Or.inr (Or.inl (by
        simp only [show (GridService.init cfgTiny).config = cfgTiny from rfl]
        omega))⟩)

/-- C4: from construction onward, every sequence of engine operations in
which each `reserveGridSpace` carries a non-empty caller-supplied id
preserves the state invariant: every occupied cell has a defined,
non-empty `widgetId`, and every free cell has `widgetId` undefined. -/
theorem C4_invariant_preserved (c : GridConfig) (ops : List GridOp)
    (hids : ∀ op ∈ ops, opIdOk op) :
    GridInv (applyOps (GridService.init c) ops) := by
  have hstep : ∀ (gs : GridService) (ops' : List GridOp),
      (∀ op ∈ ops', opIdOk op) → GridInv gs → GridInv (applyOps gs ops') := by
    intro gs ops'
    induction ops' generalizing gs with
    | nil => exact fun _ hinv => hinv
    | cons op ops' ih =>
      intro hall hinv
      rw [show applyOps gs (op :: ops') = applyOps (applyOp gs op) ops'
        from rfl]
      exact ih (applyOp gs op)
        (fun op' hop' => hall op' (List.mem_cons_of_mem _ hop'))
        (gridInv_applyOp gs op (hall op (List.mem_cons_self _ _)) hinv)
  exact hstep (GridService.init c) ops hids (gridInv_init c)

/-- C4 witness: a concrete trace on the 2×2 grid — reserve with a
non-empty id, query, release, reserve again. -/
theorem C4_witness :
    (∀ op ∈ [GridOp.reserve 0 0 1 1 "a", GridOp.snap 1 1,
      GridOp.findFree 0 0 1 1, GridOp.release "a",
      GridOp.reserve 1 1 1 1 "b", GridOp.visualize], opIdOk op) ∧
    GridInv (applyOps (GridService.init cfgTiny)
      [GridOp.reserve 0 0 1 1 "a", GridOp.snap 1 1,
        GridOp.findFree 0 0 1 1, GridOp.release "a",
        GridOp.reserve 1 1 1 1 "b", GridOp.visualize]) := by
  have hids : ∀ op ∈ [GridOp.reserve 0 0 1 1 "a", GridOp.snap 1 1,
      GridOp.findFree 0 0 1 1, GridOp.release "a",
      GridOp.reserve 1 1 1 1 "b", GridOp.visualize], opIdOk op := by
    intro op hop
    fin_cases hop <;> first | exact trivial | (intro h; simp at h)
  exact ⟨hids, C4_invariant_preserved cfgTiny _ hids⟩

/-- C1: with positive cell size on a grid with at least one row and one
column, `findNearestFreePosition` equals its specification: snap; return
the snapped point if placeable; otherwise the first placeable candidate
`snapped + (dx,dy)*cellSize`, scanning `radius = 1 …
2 * ceil(max(w,h)/cellSize)` with `dx` ascending outer, `dy` ascending
inner, Chebyshev-perimeter offsets only; fallback to the snapped point.
Consequently, on a fully unoccupied grid it returns `snapToGrid(x, y)`
whenever the snapped footprint lies within the grid. -/
theorem C1_findNearestFreePosition_correct (g : GridService) (x y w h : ℚ)
    (hcell : 0 < g.config.cellSize) (hcols : 1 ≤ colsZ g.config)
    (hrows : 1 ≤ rowsZ g.config) :
    findNearestFreePosition g x y w h =
      findNearestFreePositionSpec g x y w h ∧
    ((∀ row ∈ g.grid, ∀ p ∈ row, p.occupied = false) →
      coveredInBounds g.config (snapToGrid g.config x y).1
        (snapToGrid g.config x y).2 w h →
      findNearestFreePosition g x y w h = snapToGrid g.config x y) := by
  constructor
  · unfold findNearestFreePosition findNearestFreePositionSpec
    rw [maxRadius_eq hcell]
    simp only [ringOffsets_eq_chebyshev]
  · intro hunocc hin
    have hcp : canPlaceWidget g (snapToGrid g.config x y).1
        (snapToGrid g.config x y).2 w h none = true := by
      rw [canPlaceWidget_eq_true_iff]
      refine ⟨hin, ?_⟩
      intro r cl hr1 hr2 hc1 hc2 p hp
      obtain ⟨row, hrow, hpm⟩ := cellAtZ_mem hp
      have hocc := hunocc row hrow p hpm
      simp [hocc]
    unfold findNearestFreePosition
    rw [if_pos hcp]

theorem initializeGrid_unoccupied (c : GridConfig) :
    ∀ row ∈ initializeGrid c, ∀ p ∈ row, p.occupied = false := by
  intro row hrow p hp
  unfold initializeGrid at hrow
  simp only [List.mem_map] at hrow
  obtain ⟨n, -, hrow⟩ := hrow
  subst hrow
  simp only [List.mem_map] at hp
  obtain ⟨m, -, hp⟩ := hp
  subst hp
  rfl

/-- C1 witness: the empty 2×2 grid with input `(0, 0, 1, 1)`; the fully
unoccupied grid makes the search return the snapped point `(0, 0)`. -/
theorem C1_witness :
    (0 < cfgTiny.cellSize ∧ 1 ≤ colsZ cfgTiny ∧ 1 ≤ rowsZ cfgTiny) ∧
    findNearestFreePosition (GridService.init cfgTiny) 0 0 1 1 =
      findNearestFreePositionSpec (GridService.init cfgTiny) 0 0 1 1 ∧
    findNearestFreePosition (GridService.init cfgTiny) 0 0 1 1 =
      snapToGrid cfgTiny 0 0 := by
  have h1 : 0 < cfgTiny.cellSize := by norm_num [cfgTiny]
  have h2 : 1 ≤ colsZ cfgTiny := by rw [cfgTiny_colsZ]; omega
  have h3 : 1 ≤ rowsZ cfgTiny := by rw [cfgTiny_rowsZ]; omega
  have hsc : startColOf cfgTiny 0 = 0 := by
    rw [startColOf, cfgTiny_offsetX]
    norm_num [cfgTiny]
  have hec1 : endColOf cfgTiny 0 1 = 1 := by
    rw [endColOf, cfgTiny_offsetX]
    exact ceil_eval _ _ (by norm_num [cfgTiny])
  have hsr : startRowOf cfgTiny 0 = 0 := by
    rw [startRowOf, cfgTiny_offsetY]
    norm_num [cfgTiny]
  have her1 : endRowOf cfgTiny 0 1 = 1 := by
    rw [endRowOf, cfgTiny_offsetY]
    exact ceil_eval _ _ (by norm_num [cfgTiny])
  have hcolsZ := cfgTiny_colsZ
  have hrowsZ := cfgTiny_rowsZ
  have hsnap : snapToGrid cfgTiny 0 0 = (0, 0) := by
    unfold snapToGrid jsRound
    rw [cfgTiny_offsetX, cfgTiny_offsetY, cfgTiny_colsZ, cfgTiny_rowsZ]
    norm_num [cfgTiny]
  obtain ⟨heq, himp⟩ := C1_findNearestFreePosition_correct
    (GridService.init cfgTiny) 0 0 1 1 h1 h2 h3
  refine ⟨⟨h1, h2, h3⟩, heq, ?_⟩
  apply himp (initializeGrid_unoccupied cfgTiny)
  show coveredInBounds cfgTiny (snapToGrid cfgTiny 0 0).1
    (snapToGrid cfgTiny 0 0).2 1 1
  rw [hsnap]
  exact (⟨by omega, by omega, by omega, by omega⟩ :
    coveredInBounds cfgTiny 0 0 1 1)
